import Mathlib

/-!
Shallow embedding of the PhishSniffer repository's feature-extraction,
prediction and storage code (src/model/features.py, src/model/predict.py,
src/storage/history.py, src/storage/urls.py), together with theorems
checking the specification's claims about it.

Python floats that only ever hold values from the finite set
produced by the code (0, 1, 1.5, 2, probabilities) are embedded as ℚ.
Python strings are embedded as Lean String / List Char; the ASCII
fragment of Python's `\w` class (letters, digits, underscore) is used.
Exceptions are embedded explicitly: a `try` body that the surrounding
code catches is given an `Option String` oracle naming the exception
raised inside it (`none` = no exception), or an `Except` result.
-/

namespace PhishSniffer

/-- Python `str.lower()` on the ASCII fragment: lowercase every
character. -/
def pyLower (s : String) : String := String.mk (s.toList.map Char.toLower)

/-- Python `str.strip()` with no argument: drop whitespace from both
ends. -/
def pyStrip (s : String) : String :=
  String.mk (((s.toList.dropWhile Char.isWhitespace).reverse.dropWhile
    Char.isWhitespace).reverse)

/-- Python `sub in hay`: does `sub` start `hay`? First argument is the
pattern, second the text. -/
def startsWithL : List Char → List Char → Bool
  | [], _ => true
  | _ :: _, [] => false
  | a :: s, b :: t => a == b && startsWithL s t

/-- Python substring containment `sub in hay` over character lists. -/
def hasSubL (sub : List Char) : List Char → Bool
  | [] => sub.isEmpty
  | c :: t => startsWithL sub (c :: t) || hasSubL sub t

/-- Python `any(w in text for w in ws)`. -/
def anyIn (ws : List String) (l : List Char) : Bool :=
  ws.any fun w => hasSubL w.toList l

/-- ASCII fragment of the regex class `\w` (word character). -/
def isWordCh (c : Char) : Bool := c.isAlphanum || c == '_'

/-- Character class `[-\w.]` of the URL regex in features.py. -/
def isUrlUnitCh (c : Char) : Bool := c == '-' || isWordCh c || c == '.'

/-- Character class `[\da-fA-F]` (hexadecimal digit). -/
def isHexCh (c : Char) : Bool :=
  c.isDigit || (decide (97 ≤ c.toNat) && decide (c.toNat ≤ 102)) ||
    (decide (65 ≤ c.toNat) && decide (c.toNat ≤ 70))

/-- Drop a literal pattern from the front of a text, returning the rest. -/
def dropLit : List Char → List Char → Option (List Char)
  | [], l => some l
  | _ :: _, [] => none
  | a :: s, b :: t => if a == b then dropLit s t else none

/-- Match the scheme part `https?://` of the URL regexes: equivalent to
the alternation of the literals `http://` and `https://`. -/
def schemeRest (l : List Char) : Option (List Char) :=
  match dropLit "http://".toList l with
  | some r => some r
  | none => dropLit "https://".toList l

/-- One repetition unit `(?:[-\w.]|(?:%[\da-fA-F]{2}))` of the URL regex. -/
def urlUnit : List Char → Option (List Char)
  | [] => none
  | c :: t =>
    if isUrlUnitCh c then some t
    else if c == '%' then
      match t with
      | a :: b :: t2 => if isHexCh a && isHexCh b then some t2 else none
      | _ => none
    else none

/-- Does `re.search(r'https?://(?:[-\w.]|(?:%[\da-fA-F]{2}))+', ·)` match at
the head of the list: scheme followed by at least one unit. -/
def matchUrlAt (l : List Char) : Bool :=
  match schemeRest l with
  | some r => (urlUnit r).isSome
  | none => false

/-- `re.search` semantics: try the head predicate at every suffix. -/
def searchSub (p : List Char → Bool) : List Char → Bool
  | [] => p []
  | c :: t => p (c :: t) || searchSub p t

/-- All remainders after consuming between one and three digits, the
possible matches of `\d{1,3}` under backtracking. -/
def digits13 : List Char → List (List Char)
  | [] => []
  | a :: t =>
    if a.isDigit then
      match t with
      | b :: t2 =>
        if b.isDigit then
          match t2 with
          | c :: t3 => if c.isDigit then [t, t2, t3] else [t, t2]
          | [] => [t, t2]
        else [t]
      | [] => [t]
    else []

/-- Require a literal dot, then continue. -/
def dotThen (f : List Char → Bool) : List Char → Bool
  | '.' :: r => f r
  | _ => false

/-- Tail `\d{1,3}\.\d{1,3}\.\d{1,3}\.\d{1,3}` of the IP-URL regex, with
backtracking over the digit-group lengths. -/
def ipTail (l : List Char) : Bool :=
  (digits13 l).any (dotThen fun r1 =>
    (digits13 r1).any (dotThen fun r2 =>
      (digits13 r2).any (dotThen fun r3 => !(digits13 r3).isEmpty)))

/-- Does `re.search(r'https?://\d{1,3}\.\d{1,3}\.\d{1,3}\.\d{1,3}', ·)`
match at the head of the list. -/
def matchIpAt (l : List Char) : Bool :=
  match schemeRest l with
  | some r => ipTail r
  | none => false

/-- Character class `[\w\.-]` of the email regex in features.py. -/
def isEmailCh (c : Char) : Bool := isWordCh c || c == '.' || c == '-'

/-- Greedy run of characters satisfying a class: (consumed, rest). -/
def takeRun (p : Char → Bool) : List Char → List Char × List Char
  | [] => ([], [])
  | c :: t =>
    if p c then
      let (run, rest) := takeRun p t
      (c :: run, rest)
    else ([], c :: t)

/-- Leftmost match of `[\w\.-]+@[\w\.-]+` at the head of the list:
(matched text, rest). Greedy maximal-munch is exact here because the
class excludes the `@`. -/
def emailMatchAt (l : List Char) : Option (List Char × List Char) :=
  let (u, r1) := takeRun isEmailCh l
  if u.isEmpty then none
  else
    match r1 with
    | '@' :: r2 =>
      let (d, r3) := takeRun isEmailCh r2
      if d.isEmpty then none else some (u ++ '@' :: d, r3)
    | _ => none

/-- `re.findall(r'[\w\.-]+@[\w\.-]+', ·)`: scan left to right for
non-overlapping matches. Fuel-driven; each successful match consumes at
least one character, so fuel equal to the length never runs out. -/
def findEmailsF : Nat → List Char → List (List Char)
  | 0, _ => []
  | _ + 1, [] => []
  | n + 1, c :: t =>
    match emailMatchAt (c :: t) with
    | some (m, rest) => m :: findEmailsF n rest
    | none => findEmailsF n t

/-- All email-shaped substrings of the text, in scan order. -/
def findEmails (l : List Char) : List (List Char) := findEmailsF l.length l

/-- The domain-mismatch bonus check of feature 11 in
`extract_features_from_text`: after `re.findall`, split each match at
`@`, lowercase the domain, and test whether more than one distinct
domain occurs. -/
def multiDomains (l : List Char) : Bool :=
  let domains := (findEmails l).map fun m =>
    pyLower (((String.mk m).splitOn "@").getD 1 "")
  decide (domains.dedup.length > 1)

/-- Scale a Python `int(bool)` to ℚ. -/
def boolW (b : Bool) : ℚ := if b then 1 else 0

/-- Word list `suspicious_senders` of `extract_features_from_text`. -/
def suspicious_senders : List String :=
  ["paypal", "bank", "account", "security", "update", "verify", "amazon"]

/-- Word list `short_domains` of `extract_features_from_text`. -/
def short_domains : List String :=
  ["bit.ly", "tinyurl.com", "goo.gl", "t.co", "ow.ly", "is.gd"]

/-- Word list `urgency_words` of `extract_features_from_text`. -/
def urgency_words : List String :=
  ["urgent", "immediately", "alert", "verify", "suspend", "restrict",
   "limited", "expires", "validate", "confirm", "act now", "before",
   "offer expires"]

/-- Word list `sensitive_requests` of `extract_features_from_text`. -/
def sensitive_requests : List String :=
  ["password", "credit card", "ssn", "social security", "credentials",
   "login", "username", "pin", "bank account", "billing"]

/-- Word list `attachment_words` of `extract_features_from_text`. -/
def attachment_words : List String :=
  ["attach", "document", "file", "pdf", "doc", "invoice", "receipt",
   "statement"]

/-- Word list `money_terms` of `extract_features_from_text`. -/
def money_terms : List String :=
  ["$", "dollar", "payment", "transfer", "transaction", "wire", "money",
   "credit", "debit", "cash", "fund", "tax", "refund", "gift card"]

/-- Word list `threat_terms` of `extract_features_from_text`. -/
def threat_terms : List String :=
  ["suspended", "terminated", "unauthorized", "closed", "limited",
   "suspicious activity", "unusual", "breach", "compromised", "fraud"]

/-- Word list `offer_terms` of `extract_features_from_text`. -/
def offer_terms : List String :=
  ["won", "winner", "prize", "million", "free", "discount", "offer",
   "reward", "gift", "claim", "congratulations", "selected",
   "amazon gift card"]

/-- Body of the `try` block of `extract_features_from_text`
(features.py lines 414-472): lowercase the text, evaluate the ten
weighted boolean checks, then apply the feature-11 domain-mismatch
override of feature 0. Every operation in the Python body is total on
strings, so the body is embedded as a pure function. -/
def extractFeaturesCore (text0 : String) : List ℚ :=
  let text := pyLower text0
  let l := text.toList
  let f0 : ℚ := boolW (anyIn suspicious_senders (l.take 500))
  let f1 : ℚ := boolW (searchSub matchUrlAt l)
  let f2 : ℚ := boolW (anyIn short_domains l) * 2
  let f3 : ℚ := boolW (searchSub matchIpAt l) * 2
  let f4 : ℚ := boolW (anyIn urgency_words l)
  let f5 : ℚ := boolW (anyIn sensitive_requests l) * 1.5
  let f6 : ℚ := boolW (anyIn attachment_words l)
  let f7 : ℚ := boolW (anyIn money_terms l)
  let f8 : ℚ := boolW (anyIn threat_terms l)
  let f9 : ℚ := boolW (anyIn offer_terms l) * 2
  let g0 : ℚ := if l.contains '@' && multiDomains l then 2 else f0
  [g0, f1, f2, f3, f4, f5, f6, f7, f8, f9]

/-- `extract_features_from_text` (features.py lines 412-476). The
`exc` oracle names an exception raised inside the `try` block
(`none` = no exception, the actual behaviour: every operation in the
body is total on strings); the `except` branch returns `np.zeros(10)`. -/
def extract_features_from_text (exc : Option String) (text : String) : List ℚ :=
  match exc with
  | some _ => List.replicate 10 0
  | none => extractFeaturesCore text

/-- The `all_features` dictionary as consumed by
`prepare_features_for_model`: only the keys `body`, `subject`, `from`
are read, each optional. -/
structure EmailFeatures where
  body : Option String
  subject : Option String
  from_ : Option String

/-- The email-text concatenation of `prepare_features_for_model`:
each present field is appended followed by a space. -/
def buildEmailText (af : EmailFeatures) : String :=
  (match af.body with | some b => b ++ " " | none => "") ++
  (match af.subject with | some s => s ++ " " | none => "") ++
  (match af.from_ with | some f => f ++ " " | none => "")

/-- The length guard of `prepare_features_for_model`: a feature list
whose length differs from the model feature count is replaced by the
zero vector. -/
def ensureFeatureLen (n : Nat) (fs : List ℚ) : List ℚ :=
  if fs.length ≠ n then List.replicate n 0 else fs

/-- `prepare_features_for_model` (features.py lines 378-410), returning
the `(1, n)` array as a one-row list of lists. `excP` names an
exception raised inside this function's own `try` block, `exc` one
raised inside `extract_features_from_text`'s. -/
def prepare_features_for_model (excP exc : Option String) (af : EmailFeatures)
    (model_feature_count : Nat) : List (List ℚ) :=
  match excP with
  | some _ => [List.replicate model_feature_count 0]
  | none =>
    let email_text := buildEmailText af
    let features := extract_features_from_text exc email_text
    [ensureFeatureLen model_feature_count features]

/-- One repetition unit of the URL regex, returning (consumed, rest). -/
def urlUnitTake : List Char → Option (List Char × List Char)
  | [] => none
  | c :: t =>
    if isUrlUnitCh c then some ([c], t)
    else if c == '%' then
      match t with
      | a :: b :: t2 => if isHexCh a && isHexCh b then some ([c, a, b], t2) else none
      | _ => none
    else none

/-- Greedy star over URL units, fuel-driven (each unit consumes at
least one character, so fuel equal to the length never runs out). -/
def takeUnitsF : Nat → List Char → List Char × List Char
  | 0, l => ([], l)
  | n + 1, l =>
    match urlUnitTake l with
    | some (cs, rest) =>
      let (cs2, rest2) := takeUnitsF n rest
      (cs ++ cs2, rest2)
    | none => ([], l)

/-- The scheme literal with its consumed text: (consumed, rest). -/
def schemeTake (l : List Char) : Option (List Char × List Char) :=
  match dropLit "http://".toList l with
  | some r => some ("http://".toList, r)
  | none =>
    match dropLit "https://".toList l with
    | some r => some ("https://".toList, r)
    | none => none

/-- Character class `[/\w\.-]` of the URL regex in `find_urls`. -/
def isTailCh (c : Char) : Bool := c == '/' || isWordCh c || c == '.' || c == '-'

/-- Character class `[/\w\.-=%&+]` of the query part of the URL regex. -/
def isQueryCh (c : Char) : Bool :=
  isTailCh c || c == '=' || c == '%' || c == '&' || c == '+'

/-- Leftmost match of the full `find_urls` pattern
`https?://(?:[-\w.]|(?:%[\da-fA-F]{2}))+[/\w\.-]*(?:\?[/\w\.-=%&+]*)?`
at the head of the list: (matched text, rest). Greedy maximal-munch is
exact because every part after the mandatory first unit can match the
empty string, so the regex engine never backtracks. -/
def matchUrlFull (l : List Char) : Option (List Char × List Char) :=
  match schemeTake l with
  | none => none
  | some (sch, r) =>
    match urlUnitTake r with
    | none => none
    | some (u1, r1) =>
      let (us, r2) := takeUnitsF r1.length r1
      let (tl, r3) := takeRun isTailCh r2
      match r3 with
      | '?' :: r4 =>
        let (q, r5) := takeRun isQueryCh r4
        some (sch ++ u1 ++ us ++ tl ++ '?' :: q, r5)
      | _ => some (sch ++ u1 ++ us ++ tl, r3)

/-- `re.findall(url_pattern, ·)` of `find_urls`: scan left to right for
non-overlapping matches, fuel-driven. -/
def findUrlsF : Nat → List Char → List String
  | 0, _ => []
  | _ + 1, [] => []
  | n + 1, c :: t =>
    match matchUrlFull (c :: t) with
    | some (m, rest) => String.mk m :: findUrlsF n rest
    | none => findUrlsF n t

/-- The raw URL matches of a text, in scan order. -/
def findUrlMatches (text : String) : List String :=
  findUrlsF text.length text.toList

/-- The deduplication loop of `find_urls`: walk the matches, appending
each URL to the accumulator only if it is not already present. -/
def dedupAcc : List String → List String → List String
  | acc, [] => acc
  | acc, u :: rest => if u ∈ acc then dedupAcc acc rest else dedupAcc (acc ++ [u]) rest

/-- `find_urls` (features.py lines 192-209): empty (falsy) text short
circuits to `[]`; otherwise find all URL matches and deduplicate
preserving order. -/
def find_urls (text : String) : List String :=
  if text = "" then [] else dedupAcc [] (findUrlMatches text)

/-- Keep the first occurrence of every element, in order: the canonical
statement of "no duplicates, ordered by first occurrence". Defined
independently of `find_urls` for comparison with it. -/
def firstOccur : List String → List String
  | [] => []
  | x :: t => x :: firstOccur (t.filter fun y => decide (y ≠ x))
termination_by l => l.length
decreasing_by
  exact Nat.lt_succ_of_le (List.length_filter_le _ t)

/-- `extract_domain` (features.py lines 57-61): the part after the
first `@` (Python `split('@')[1]`), lowercased; `""` when there is no
`@`. -/
def extract_domain (email : String) : String :=
  if email.contains '@' then pyLower ((email.splitOn "@").getD 1 "") else ""

/-- `check_domain_mismatch` (features.py lines 63-82): flag a mismatch
when the From address has a domain and the Reply-To or Return-Path
address carries a different non-empty domain. -/
def check_domain_mismatch (from_email reply_to_email return_path_email : String) : Bool :=
  if from_email = "" then false
  else if reply_to_email ≠ "" ∧ extract_domain from_email ≠ "" ∧
      extract_domain reply_to_email ≠ "" ∧
      extract_domain reply_to_email ≠ extract_domain from_email then true
  else if return_path_email ≠ "" ∧ extract_domain from_email ≠ "" ∧
      extract_domain return_path_email ≠ "" ∧
      extract_domain return_path_email ≠ extract_domain from_email then true
  else false

/-- JSON values as stored by the repository's storage layer. Python
ints and floats are kept apart (`json.dump` writes them differently). -/
inductive JsonVal
  | null
  | bool (b : Bool)
  | int (z : ℤ)
  | num (q : ℚ)
  | str (s : String)
  | arr (xs : List JsonVal)
  | obj (fields : List (String × JsonVal))

/-- Keys of a JSON object, in order; `[]` for non-objects. -/
def jsonKeys : JsonVal → List String
  | .obj fields => fields.map Prod.fst
  | _ => []

/-- Outcome of opening and reading a JSON file: the file may be
missing, the read or parse may raise, or it yields a parsed value. -/
inductive FileRead (α : Type)
  | missing
  | raises (e : String)
  | ok (v : α)

/-- `load_suspicious_urls` (urls.py lines 5-16): the parsed file value
if the file exists and reading succeeds, `[]` otherwise. -/
def load_suspicious_urls (fs : FileRead JsonVal) : JsonVal :=
  match fs with
  | .missing => .arr []
  | .raises _ => .arr []
  | .ok v => v

/-- State of the history file as seen by `load_analysis_history`:
missing, raising on open/read, or present with raw string content. -/
inductive HistFile
  | missing
  | raises (e : String)
  | content (s : String)

/-- The serialized empty JSON list written by `json.dump([], file)`. -/
def emptyJsonList : String := "[]"

/-- `load_analysis_history` (history.py lines 5-41). Returns the list
of strings written to the history file (in order) and the returned
value. A missing file is initialized to `[]`; empty content yields `[]`
without a write; a parse failure resets the file to `[]`; any other
read error also resets the file to `[]`. -/
def load_analysis_history (parse : String → Except String JsonVal)
    (fs : HistFile) : List String × JsonVal :=
  match fs with
  | .missing => ([emptyJsonList], .arr [])
  | .raises _ => ([emptyJsonList], .arr [])
  | .content s =>
    let c := pyStrip s
    if c = "" then ([], .arr [])
    else
      match parse c with
      | .ok v => ([], v)
      | .error _ => ([emptyJsonList], .arr [])

/-- The new history record built by `update_analysis_history`
(history.py lines 50-55): exactly the four fields, with `is_phishing`
coerced to the integer 0 or 1 and `probability` to a float. -/
def mkHistoryEntry (source timestamp : String) (is_phishing : Bool)
    (probability : ℚ) : JsonVal :=
  .obj [("source", .str source), ("timestamp", .str timestamp),
        ("is_phishing", .int (if is_phishing then 1 else 0)),
        ("probability", .num probability)]

/-- `update_analysis_history` (history.py lines 43-71), with the file
round-trip abstracted to the prior history list: insert the new entry
at the front and keep at most the 10 most recent entries. -/
def update_analysis_history (history : List JsonVal) (source timestamp : String)
    (is_phishing : Bool) (probability : ℚ) : List JsonVal :=
  let entry := mkHistoryEntry source timestamp is_phishing probability
  let h := entry :: history
  if h.length > 10 then h.take 10 else h

/-- A loaded scikit-learn model as `run_model` probes it: each method
may be absent (`hasattr` fails) and, when invoked, either raises or
yields the extracted probability (`prediction[0][1]` for
`predict_proba`, `float(prediction[0])` for `predict`). -/
structure SkModel where
  predict_proba : Option (List ℚ → Except String ℚ)
  predict : Option (List ℚ → Except String ℚ)

/-- The slice of the app object that `run_model` reads. -/
structure AppState where
  loaded_model : Option SkModel
  model_feature_count : Nat

/-- The feature-resizing branch of `run_model` (predict.py lines
299-306): copy the common prefix into a zero row of the expected
width. -/
def resizeFeatures (count : Nat) (features : List ℚ) : List ℚ :=
  if features.length ≠ count then
    features.take count ++ List.replicate (count - features.length) 0
  else features

/-- `run_model` (predict.py lines 290-326): 0.5 when no model is
loaded, when the model has neither predict method, or when the invoked
method raises; otherwise the method's probability. The features
argument is the single row of the `(1, k)` array. -/
def run_model (app : AppState) (features : List ℚ) : ℚ :=
  match app.loaded_model with
  | none => 1/2
  | some m =>
    let fs := resizeFeatures app.model_feature_count features
    match m.predict_proba with
    | some f =>
      match f fs with
      | .ok p => p
      | .error _ => 1/2
    | none =>
      match m.predict with
      | some f =>
        match f fs with
        | .ok p => p
        | .error _ => 1/2
      | none => 1/2

/-- The slice of `PhishingPredictor` state that `set_threshold`
touches (predict.py lines 17-22, 268-273). -/
structure PhishingPredictor where
  model_dir : String
  threshold : ℚ

/-- `set_threshold` (predict.py lines 268-273), state-passing: the
returned predictor is the post-call state and the second component is
the `ValueError` message when one is raised. The threshold is assigned
only after the range check passes. -/
def set_threshold (p : PhishingPredictor) (t : ℚ) : PhishingPredictor × Option String :=
  if 0 ≤ t ∧ t ≤ 1 then ({ p with threshold := t }, none)
  else (p, some "Threshold must be between 0 and 1")

/-- A model whose `predict_proba` raises on every call. -/
def errModelA : SkModel := ⟨some fun _ => Except.error "boom", none⟩

/-- A model without `predict_proba` whose `predict` raises on every call. -/
def errModelB : SkModel := ⟨none, some fun _ => Except.error "boom"⟩

/-- App state holding `errModelA`. -/
def appA : AppState := ⟨some errModelA, 10⟩

/-- App state holding `errModelB`. -/
def appB : AppState := ⟨some errModelB, 10⟩

/-- A parse function that fails on every input, as `json.loads` does on
invalid JSON. -/
def parseFail : String → Except String JsonVal := fun _ => Except.error "Expecting value"

/-- A predictor with the default threshold. -/
def predictor0 : PhishingPredictor := ⟨"trained_models", 1/2⟩

/-- A prior history of ten records. -/
def history10 : List JsonVal := List.replicate 10 JsonVal.null

/-- The length guard always yields a list of the requested length. -/
lemma ensureFeatureLen_length (n : Nat) (fs : List ℚ) : (ensureFeatureLen n fs).length = n := by
  unfold ensureFeatureLen
  split
  · simp
  · omega

/-- C1: for every input string, `extract_features_from_text` returns a
feature vector of exactly 10 elements, and `prepare_features_for_model`
always returns an array of shape (1, 10), replacing any result whose
length differs from 10 with the zero vector. -/
theorem extract_and_prepare_shape :
    (∀ (exc : Option String) (t : String), (extract_features_from_text exc t).length = 10) ∧
    (∀ (excP exc : Option String) (af : EmailFeatures),
      (prepare_features_for_model excP exc af 10).length = 1 ∧
      ∀ row ∈ prepare_features_for_model excP exc af 10, row.length = 10) ∧
    (∀ fs : List ℚ, fs.length ≠ 10 → ensureFeatureLen 10 fs = List.replicate 10 0) := by
  refine ⟨fun exc t => ?_, fun excP exc af => ⟨?_, ?_⟩, fun fs h => ?_⟩
  · cases exc <;> rfl
  · cases excP <;> rfl
  · intro row hrow
    cases excP with
    | some e =>
      simp only [prepare_features_for_model, List.mem_singleton] at hrow
      simp [hrow]
    | none =>
      simp only [prepare_features_for_model, List.mem_singleton] at hrow
      rw [hrow]
      exact ensureFeatureLen_length 10 _
  · unfold ensureFeatureLen
    rw [if_pos h]

/-- Witness for C1: the shape guarantees evaluated at concrete inputs,
discharging the membership and length hypotheses. -/
theorem extract_and_prepare_shape_witness :
    (List.replicate 10 (0:ℚ)).length = 10 ∧
    ensureFeatureLen 10 [] = List.replicate 10 0 := by
  refine ⟨?_, ?_⟩
  · exact (extract_and_prepare_shape.2.1 (some "err") none ⟨none, none, none⟩).2
      (List.replicate 10 0) (by simp [prepare_features_for_model])
  · exact extract_and_prepare_shape.2.2 [] (by simp)

/-- C2: every error is caught at its call site and converted to a
default: an exception inside `extract_features_from_text` yields the
10-element zero vector, an exception around or inside feature
extraction makes `prepare_features_for_model` return the (1,10) zero
array, and an exception while running the model makes `run_model`
return 0.5. -/
theorem errors_convert_to_defaults :
    (∀ (e t : String), extract_features_from_text (some e) t = List.replicate 10 0) ∧
    (∀ (e : String) (exc : Option String) (af : EmailFeatures),
      prepare_features_for_model (some e) exc af 10 = [List.replicate 10 0]) ∧
    (∀ (e : String) (af : EmailFeatures),
      prepare_features_for_model none (some e) af 10 = [List.replicate 10 0]) ∧
    (∀ (app : AppState) (m : SkModel) (f : List ℚ → Except String ℚ)
        (feats : List ℚ) (e : String),
      app.loaded_model = some m → m.predict_proba = some f →
      f (resizeFeatures app.model_feature_count feats) = Except.error e →
      run_model app feats = 1/2) ∧
    (∀ (app : AppState) (m : SkModel) (f : List ℚ → Except String ℚ)
        (feats : List ℚ) (e : String),
      app.loaded_model = some m → m.predict_proba = none → m.predict = some f →
      f (resizeFeatures app.model_feature_count feats) = Except.error e →
      run_model app feats = 1/2) := by
  refine ⟨fun e t => rfl, fun e exc af => rfl, fun e af => rfl,
    fun app m f feats e h1 h2 h3 => ?_, fun app m f feats e h1 h2 h2' h3 => ?_⟩
  · simp only [run_model, h1, h2, h3]
  · simp only [run_model, h1, h2, h2', h3]

/-- Witness for C2: concrete models whose invoked method raises make
`run_model` return 0.5. -/
theorem errors_convert_to_defaults_witness :
    run_model appA [1] = 1/2 ∧ run_model appB [1] = 1/2 := by
  refine ⟨?_, ?_⟩
  · exact errors_convert_to_defaults.2.2.2.1 appA errModelA _ [1] "boom" rfl rfl rfl
  · exact errors_convert_to_defaults.2.2.2.2 appB errModelB _ [1] "boom" rfl rfl rfl rfl

/-- C5: `extract_features_from_text` is total: whatever the exception
oracle says, it returns a value, either the computed feature vector or,
through the exception branch, the zero vector. -/
theorem extract_never_throws : ∀ (exc : Option String) (t : String),
    extract_features_from_text exc t = extractFeaturesCore t ∨
    extract_features_from_text exc t = List.replicate 10 0 := by
  intro exc t
  cases exc with
  | none => exact Or.inl rfl
  | some e => exact Or.inr rfl

/-- C6: the feature extractor is a pure function of its input string:
equal inputs give equal feature vectors. -/
theorem extract_deterministic : ∀ (exc : Option String) (t₁ t₂ : String),
    t₁ = t₂ → extract_features_from_text exc t₁ = extract_features_from_text exc t₂ := by
  intro exc t₁ t₂ h
  rw [h]

/-- Witness for C6 at a concrete input. -/
theorem extract_deterministic_witness :
    extract_features_from_text none "hello" = extract_features_from_text none "hello" :=
  extract_deterministic none "hello" "hello" rfl

/-- C8: `set_threshold` raises `ValueError` exactly when its argument
is outside [0, 1]; on raising, the predictor is unchanged, otherwise
the threshold field becomes the argument. -/
theorem set_threshold_spec : ∀ (p : PhishingPredictor) (t : ℚ),
    ((set_threshold p t).2.isSome ↔ (t < 0 ∨ 1 < t)) ∧
    ((t < 0 ∨ 1 < t) → (set_threshold p t).1 = p) ∧
    (¬(t < 0 ∨ 1 < t) →
      (set_threshold p t).1.threshold = t ∧ (set_threshold p t).2 = none) := by
  intro p t
  by_cases h : 0 ≤ t ∧ t ≤ 1
  · have hn : ¬(t < 0 ∨ 1 < t) := by
      push_neg
      exact h
    refine ⟨?_, fun hc => absurd hc hn, fun _ => ?_⟩
    · simp [set_threshold, h, hn]
    · simp [set_threshold, h]
  · have ho : t < 0 ∨ 1 < t := by
      rcases not_and_or.mp h with h1 | h2
      · exact Or.inl (not_le.mp h1)
      · exact Or.inr (not_le.mp h2)
    refine ⟨?_, fun _ => ?_, fun hc => absurd ho hc⟩
    · simp [set_threshold, h, ho]
    · simp [set_threshold, h]

/-- Witness for C8: out-of-range 2 leaves the predictor unchanged,
in-range 1/2 is stored. -/
theorem set_threshold_spec_witness :
    (set_threshold predictor0 2).1 = predictor0 ∧
    (set_threshold predictor0 (1/2)).1.threshold = 1/2 := by
  refine ⟨?_, ?_⟩
  · exact (set_threshold_spec predictor0 2).2.1 (Or.inr (by norm_num))
  · exact ((set_threshold_spec predictor0 (1/2)).2.2 (by
      push_neg
      norm_num)).1

/-- C3: `update_analysis_history` puts the new record first, the
record has exactly the fields source/timestamp/is_phishing/probability
with `is_phishing` an integer 0 or 1 and `probability` a float, the
result has at most 10 entries, and a prior list of 10 entries loses
its oldest entry. -/
theorem update_history_spec : ∀ (history : List JsonVal) (source timestamp : String)
    (isp : Bool) (prob : ℚ),
    (update_analysis_history history source timestamp isp prob).head? =
      some (mkHistoryEntry source timestamp isp prob) ∧
    mkHistoryEntry source timestamp isp prob =
      JsonVal.obj [("source", JsonVal.str source), ("timestamp", JsonVal.str timestamp),
        ("is_phishing", JsonVal.int (if isp then 1 else 0)),
        ("probability", JsonVal.num prob)] ∧
    jsonKeys (mkHistoryEntry source timestamp isp prob) =
      ["source", "timestamp", "is_phishing", "probability"] ∧
    ((if isp then (1:ℤ) else 0) = 0 ∨ (if isp then (1:ℤ) else 0) = 1) ∧
    (update_analysis_history history source timestamp isp prob).length ≤ 10 ∧
    (history.length = 10 →
      update_analysis_history history source timestamp isp prob =
        mkHistoryEntry source timestamp isp prob :: history.take 9) := by
  intro history source timestamp isp prob
  refine ⟨?_, rfl, rfl, ?_, ?_, ?_⟩
  · simp only [update_analysis_history]
    split
    · simp
    · simp
  · cases isp <;> simp
  · simp only [update_analysis_history]
    split
    · simp only [List.length_take]
      omega
    · simp only [List.length_cons] at *
      omega
  · intro h10
    have hlen : (mkHistoryEntry source timestamp isp prob :: history).length > 10 := by
      simp [h10]
    simp only [update_analysis_history]
    rw [if_pos hlen]
    exact List.take_succ_cons

/-- Witness for C3: with a concrete 10-entry prior history the oldest
entry is discarded. -/
theorem update_history_spec_witness :
    update_analysis_history history10 "mail" "2024-01-01T00:00:00" true (3/4) =
      mkHistoryEntry "mail" "2024-01-01T00:00:00" true (3/4) :: history10.take 9 :=
  (update_history_spec history10 "mail" "2024-01-01T00:00:00" true (3/4)).2.2.2.2.2 rfl

/-- C7 (amended): `load_suspicious_urls` returns `[]` on a missing
file or a read exception; `load_analysis_history` returns `[]` on a
missing, empty, or invalid-JSON history file, resetting the file to an
empty JSON list in the missing, read-error and invalid-JSON cases but
performing no write when the file merely has empty content. -/
theorem storage_reads_default_empty :
    (∀ e : String,
      load_suspicious_urls FileRead.missing = JsonVal.arr [] ∧
      load_suspicious_urls (FileRead.raises e) = JsonVal.arr []) ∧
    (∀ (parse : String → Except String JsonVal) (e : String),
      load_analysis_history parse HistFile.missing = ([emptyJsonList], JsonVal.arr []) ∧
      load_analysis_history parse (HistFile.raises e) = ([emptyJsonList], JsonVal.arr [])) ∧
    (∀ (parse : String → Except String JsonVal) (s : String),
      pyStrip s = "" →
      load_analysis_history parse (HistFile.content s) = ([], JsonVal.arr [])) ∧
    (∀ (parse : String → Except String JsonVal) (s e : String),
      pyStrip s ≠ "" → parse (pyStrip s) = Except.error e →
      load_analysis_history parse (HistFile.content s) = ([emptyJsonList], JsonVal.arr [])) := by
  refine ⟨fun e => ⟨rfl, rfl⟩, fun parse e => ⟨rfl, rfl⟩,
    fun parse s hs => ?_, fun parse s e hs hp => ?_⟩
  · simp [load_analysis_history, hs]
  · simp [load_analysis_history, hs, hp]

/-- Counterexample to C7 as stated: on a history file that exists with
whitespace-only content, `load_analysis_history` returns `[]` but does
NOT reset the file to an empty JSON list — no write happens at all. -/
theorem load_history_empty_content_no_reset :
    (load_analysis_history parseFail (HistFile.content " ")).2 = JsonVal.arr [] ∧
    (load_analysis_history parseFail (HistFile.content " ")).1 = [] := by
  exact ⟨rfl, rfl⟩

/-- Witness for the amended C7 at concrete inputs: invalid JSON resets
the file, empty content does not. -/
theorem storage_reads_default_empty_witness :
    load_analysis_history parseFail (HistFile.content "not json") =
      ([emptyJsonList], JsonVal.arr []) ∧
    load_analysis_history parseFail (HistFile.content "   ") = ([], JsonVal.arr []) := by
  refine ⟨?_, ?_⟩
  · exact storage_reads_default_empty.2.2.2 parseFail "not json" "Expecting value"
      (by decide) rfl
  · exact storage_reads_default_empty.2.2.1 parseFail "   " (by decide)

/-- C10: `check_domain_mismatch` returns true exactly when the From
address is non-empty with a non-empty domain and the Reply-To or
Return-Path address is non-empty with a different non-empty domain; in
particular it is false whenever the From address is empty. -/
theorem check_domain_mismatch_spec : ∀ (f r p : String),
    (check_domain_mismatch f r p = true ↔
      f ≠ "" ∧ extract_domain f ≠ "" ∧
        ((r ≠ "" ∧ extract_domain r ≠ "" ∧ extract_domain r ≠ extract_domain f) ∨
         (p ≠ "" ∧ extract_domain p ≠ "" ∧ extract_domain p ≠ extract_domain f))) ∧
    check_domain_mismatch "" r p = false := by
  intro f r p
  refine ⟨?_, rfl⟩
  unfold check_domain_mismatch
  split_ifs with h1 h2 h3
  · simp [h1]
  · obtain ⟨hr, hfd, hrd, hne⟩ := h2
    exact iff_of_true rfl ⟨h1, hfd, Or.inl ⟨hr, hrd, hne⟩⟩
  · obtain ⟨hp, hfd, hpd, hne⟩ := h3
    exact iff_of_true rfl ⟨h1, hfd, Or.inr ⟨hp, hpd, hne⟩⟩
  · refine iff_of_false (by simp) ?_
    rintro ⟨hf, hfd, hor⟩
    rcases hor with ⟨hr, hrd, hne⟩ | ⟨hp, hpd, hne⟩
    · exact h2 ⟨hr, hfd, hrd, hne⟩
    · exact h3 ⟨hp, hfd, hpd, hne⟩

/-- Membership in `firstOccur` is membership in the original list. -/
lemma mem_firstOccur (l : List String) (y : String) : y ∈ firstOccur l ↔ y ∈ l := by
  induction l using firstOccur.induct with
  | case1 => rw [firstOccur]
  | case2 x t ih =>
    rw [firstOccur]
    by_cases hxy : y = x
    · subst hxy
      simp
    · simp only [List.mem_cons, hxy, false_or, ih, List.mem_filter,
        decide_eq_true_eq]
      exact and_iff_left hxy

/-- `firstOccur` has no duplicate elements. -/
lemma nodup_firstOccur (l : List String) : (firstOccur l).Nodup := by
  induction l using firstOccur.induct with
  | case1 =>
    rw [firstOccur]
    exact List.nodup_nil
  | case2 x t ih =>
    rw [firstOccur, List.nodup_cons]
    refine ⟨fun hx => ?_, ih⟩
    rw [mem_firstOccur, List.mem_filter] at hx
    simp at hx

/-- Filtering by "not in `acc ++ [u]`" is filtering by "not in `acc`"
then by "not equal to `u`". -/
lemma filter_notmem_append (acc : List String) (u : String) :
    ∀ rs : List String,
      rs.filter (fun y => decide (y ∉ acc ++ [u])) =
        (rs.filter fun y => decide (y ∉ acc)).filter fun y => decide (y ≠ u) := by
  intro rs
  induction rs with
  | nil => rfl
  | cons a as ihr =>
    by_cases hau : a = u
    · subst hau
      have h1 : a ∈ acc ++ [a] := List.mem_append.mpr (Or.inr (by simp))
      by_cases ha : a ∈ acc
      · simpa [List.filter_cons, ha, h1] using ihr
      · simpa [List.filter_cons, ha, h1] using ihr
    · by_cases ha : a ∈ acc
      · have h1 : a ∈ acc ++ [u] := List.mem_append.mpr (Or.inl ha)
        simpa [List.filter_cons, ha, h1] using ihr
      · have h1 : a ∉ acc ++ [u] := by
          simp [List.mem_append, ha, hau]
        simpa [List.filter_cons, ha, hau, h1] using ihr

/-- The deduplication loop appends, after the accumulator, the first
occurrences of the not-yet-seen elements in order. -/
lemma dedupAcc_eq (l : List String) : ∀ acc : List String,
    dedupAcc acc l = acc ++ firstOccur (l.filter fun y => decide (y ∉ acc)) := by
  induction l with
  | nil =>
    intro acc
    rw [dedupAcc, List.filter_nil, firstOccur, List.append_nil]
  | cons u rest ih =>
    intro acc
    by_cases hu : u ∈ acc
    · rw [dedupAcc, if_pos hu, ih]
      have hfil : (u :: rest).filter (fun y => decide (y ∉ acc)) =
          rest.filter (fun y => decide (y ∉ acc)) := by
        simp [List.filter_cons, hu]
      rw [hfil]
    · rw [dedupAcc, if_neg hu, ih]
      have hfil : (u :: rest).filter (fun y => decide (y ∉ acc)) =
          u :: rest.filter (fun y => decide (y ∉ acc)) := by
        simp [List.filter_cons, hu]
      rw [hfil, firstOccur, filter_notmem_append acc u rest]
      simp

/-- C9: `find_urls` returns the empty list on empty input and, on any
input, a duplicate-free list equal to the first occurrences of the raw
left-to-right URL matches in order. -/
theorem find_urls_spec :
    find_urls "" = [] ∧
    ∀ t : String, (find_urls t).Nodup ∧ find_urls t = firstOccur (findUrlMatches t) := by
  refine ⟨rfl, fun t => ?_⟩
  have key : find_urls t = firstOccur (findUrlMatches t) := by
    by_cases ht : t = ""
    · subst ht
      show ([] : List String) = firstOccur (findUrlMatches "")
      rw [show findUrlMatches "" = [] from rfl, firstOccur]
    · rw [find_urls, if_neg ht, dedupAcc_eq, List.nil_append]
      congr 1
      have hp : (fun y : String => decide (y ∉ ([] : List String))) = fun _ => true := by
        funext y
        simp
      rw [hp, List.filter_true]
  exact ⟨key ▸ nodup_firstOccur _, key⟩

/-- An unweighted check contributes 0 or 1. -/
lemma boolW_eq_or (b : Bool) : boolW b = 0 ∨ boolW b = 1 := by
  cases b <;> simp [boolW]

/-- A double-weighted check written as an if. -/
lemma boolW_mul_two (b : Bool) : boolW b * 2 = if b then (2:ℚ) else 0 := by
  cases b <;> simp [boolW]

/-- A double-weighted check contributes 0 or 2. -/
lemma boolW_mul_two_or (b : Bool) : boolW b * 2 = 0 ∨ boolW b * 2 = 2 := by
  cases b <;> simp [boolW]

/-- A 1.5-weighted check contributes 0 or 1.5. -/
lemma boolW_mul_sesqui_or (b : Bool) : boolW b * 1.5 = 0 ∨ boolW b * 1.5 = 1.5 := by
  cases b <;> simp [boolW]

/-- The body of `extract_features_from_text` spelled out as an explicit
ten-element list. -/
lemma extractFeaturesCore_eq (t : String) : extractFeaturesCore t =
    [if ((pyLower t).toList).contains '@' && multiDomains ((pyLower t).toList) then 2
       else boolW (anyIn suspicious_senders (((pyLower t).toList).take 500)),
     boolW (searchSub matchUrlAt (pyLower t).toList),
     boolW (anyIn short_domains (pyLower t).toList) * 2,
     boolW (searchSub matchIpAt (pyLower t).toList) * 2,
     boolW (anyIn urgency_words (pyLower t).toList),
     boolW (anyIn sensitive_requests (pyLower t).toList) * 1.5,
     boolW (anyIn attachment_words (pyLower t).toList),
     boolW (anyIn money_terms (pyLower t).toList),
     boolW (anyIn threat_terms (pyLower t).toList),
     boolW (anyIn offer_terms (pyLower t).toList) * 2] := rfl

/-- Membership of a 0-or-1 value in the weight set. -/
lemma weight_set_of_01 {x : ℚ} (h : x = 0 ∨ x = 1) :
    x ∈ ({0, 1, 1.5, 2} : Set ℚ) := by
  rcases h with h | h <;> simp [h]

/-- Membership of a 0-or-2 value in the weight set. -/
lemma weight_set_of_02 {x : ℚ} (h : x = 0 ∨ x = 2) :
    x ∈ ({0, 1, 1.5, 2} : Set ℚ) := by
  rcases h with h | h <;> simp [h]

/-- Membership of a 0-or-1.5 value in the weight set. -/
lemma weight_set_of_015 {x : ℚ} (h : x = 0 ∨ x = 1.5) :
    x ∈ ({0, 1, 1.5, 2} : Set ℚ) := by
  rcases h with h | h <;> simp [h]

/-- The overridden feature 0 always lies in the weight set. -/
lemma feature0_weight_set (c b : Bool) :
    (if c = true then (2:ℚ) else boolW b) ∈ ({0, 1, 1.5, 2} : Set ℚ) := by
  cases c
  · rw [if_neg (by simp)]
    exact weight_set_of_01 (boolW_eq_or b)
  · rw [if_pos rfl]
    simp

/-- C4: in the vector returned by `extract_features_from_text`, the
IP-based-URL feature (index 3) is 2 exactly when the lowered text
matches the IP-URL regex and 0 otherwise, the shortened-URL feature
(index 2) is 0 or 2, the sensitive-data feature (index 5) is 0 or 1.5,
and every component lies in the set of hand-picked weights
0, 1, 1.5, 2. -/
theorem feature_weights_spec : ∀ t : String,
    ((extract_features_from_text none t)[3]? =
      some (if searchSub matchIpAt (pyLower t).toList then (2:ℚ) else 0)) ∧
    ((extract_features_from_text none t)[2]? = some (0:ℚ) ∨
      (extract_features_from_text none t)[2]? = some (2:ℚ)) ∧
    ((extract_features_from_text none t)[5]? = some (0:ℚ) ∨
      (extract_features_from_text none t)[5]? = some (1.5:ℚ)) ∧
    (∀ x ∈ extract_features_from_text none t, x ∈ ({0, 1, 1.5, 2} : Set ℚ)) := by
  intro t
  have he : extract_features_from_text none t = extractFeaturesCore t := rfl
  rw [he, extractFeaturesCore_eq]
  refine ⟨?_, ?_, ?_, ?_⟩
  · rw [boolW_mul_two (searchSub matchIpAt (pyLower t).toList)]
    rfl
  · rcases boolW_mul_two_or (anyIn short_domains (pyLower t).toList) with h | h
    · rw [h]
      exact Or.inl rfl
    · rw [h]
      exact Or.inr rfl
  · rcases boolW_mul_sesqui_or (anyIn sensitive_requests (pyLower t).toList) with h | h
    · rw [h]
      exact Or.inl rfl
    · rw [h]
      exact Or.inr rfl
  · intro x hx
    simp only [List.mem_cons, List.not_mem_nil, or_false] at hx
    rcases hx with h|h|h|h|h|h|h|h|h|h <;> subst h
    · exact feature0_weight_set _ _
    · exact weight_set_of_01 (boolW_eq_or _)
    · exact weight_set_of_02 (boolW_mul_two_or _)
    · exact weight_set_of_02 (boolW_mul_two_or _)
    · exact weight_set_of_01 (boolW_eq_or _)
    · exact weight_set_of_015 (boolW_mul_sesqui_or _)
    · exact weight_set_of_01 (boolW_eq_or _)
    · exact weight_set_of_01 (boolW_eq_or _)
    · exact weight_set_of_01 (boolW_eq_or _)
    · exact weight_set_of_02 (boolW_mul_two_or _)

/-- Witness for C4 at the empty string: index 3 is 0 (no IP URL), and
the member 0 of the resulting vector lies in the weight set. -/
theorem feature_weights_spec_witness :
    ((extract_features_from_text none "")[3]? =
      some (if searchSub matchIpAt (pyLower "").toList then (2:ℚ) else 0)) ∧
    (0:ℚ) ∈ ({0, 1, 1.5, 2} : Set ℚ) := by
  refine ⟨(feature_weights_spec "").1, (feature_weights_spec "").2.2.2 0 ?_⟩
  rw [show extract_features_from_text none "" = extractFeaturesCore "" from rfl,
    extractFeaturesCore_eq]
  left
